import Mathlib

/-!
Verification of the TTSNewsReader backend speech-synthesis pipeline
(src/backend/server.js) against its design specification.

Modelling conventions:
* Node Buffer bytes are lists of natural numbers below 256.
* JavaScript numbers are modelled as exact rationals; Math.floor is the
  integer floor on rationals.  Math.sin is an opaque sample function
  supplied by the environment, since its value is an implementation
  approximation.
* In-bounds Buffer writes (buf.write / writeUIntLE / writeInt16LE) splice
  the written bytes into the buffer at the given offset.  All writes
  performed by the source are in bounds of the allocated buffers.
* Fallible JavaScript code is modelled with Except; a thrown exception is
  an error value carrying the message.
-/

/-- Buffer.alloc: a zero-filled byte buffer of the given length. -/
def bufAlloc (n : Nat) : List Nat := List.replicate n 0

/-- An in-bounds Buffer write: splice the bytes into the buffer at the
offset, leaving surrounding bytes intact. -/
def writeBytesAt (buf : List Nat) (off : Nat) (bs : List Nat) : List Nat :=
  buf.take off ++ bs ++ buf.drop (off + bs.length)

/-- Buffer.write with an ASCII string: its character codes. -/
def asciiBytes (s : String) : List Nat := s.data.map Char.toNat

/-- Buffer.writeUInt16LE: two little-endian bytes. -/
def u16le (n : Nat) : List Nat := [n % 256, n / 256 % 256]

/-- Buffer.writeUInt32LE: four little-endian bytes. -/
def u32le (n : Nat) : List Nat :=
  [n % 256, n / 256 % 256, n / 65536 % 256, n / 16777216 % 256]

/-- Buffer.writeInt16LE: the 16-bit two-complement little-endian bytes of
an integer in the int16 range. -/
def int16le (z : Int) : List Nat := u16le (z.emod 65536).toNat

/-- The sample quantization performed by convertAudioDataToWAV
(server.js lines 201 to 208): clamp to [-1, 1] with
Math.max(-1, Math.min(1, x)), then Math.floor(sample * 32767). -/
def quantizeSample (x : ℚ) : ℤ := ⌊max (-1) (min 1 x) * 32767⌋

/-- The 44-byte WAV header write sequence shared verbatim by
convertAudioDataToWAV (lines 177 to 199) and generateTestAudio
(lines 507 to 520): sequential writes into Buffer.alloc(44) at offsets
0,4,8,12,16,20,22,24,28,32,34,36,40. -/
def writeWAVHeader (chunkSize numChannels sampleRate byteRate blockAlign
    bitsPerSample dataSize : Nat) : List Nat :=
  let h0 := bufAlloc 44
  let h1 := writeBytesAt h0 0 (asciiBytes "RIFF")
  let h2 := writeBytesAt h1 4 (u32le chunkSize)
  let h3 := writeBytesAt h2 8 (asciiBytes "WAVE")
  let h4 := writeBytesAt h3 12 (asciiBytes "fmt ")
  let h5 := writeBytesAt h4 16 (u32le 16)
  let h6 := writeBytesAt h5 20 (u16le 1)
  let h7 := writeBytesAt h6 22 (u16le numChannels)
  let h8 := writeBytesAt h7 24 (u32le sampleRate)
  let h9 := writeBytesAt h8 28 (u32le byteRate)
  let h10 := writeBytesAt h9 32 (u16le blockAlign)
  let h11 := writeBytesAt h10 34 (u16le bitsPerSample)
  let h12 := writeBytesAt h11 36 (asciiBytes "data")
  writeBytesAt h12 40 (u32le dataSize)

/-- The PCM conversion loop of convertAudioDataToWAV (lines 202 to 208):
for each index i, write the quantized sample at byte offset i * 2. -/
def writeSamplesLoop (buf : List Nat) : List ℚ → Nat → List Nat
  | [], _ => buf
  | x :: rest, i =>
      writeSamplesLoop (writeBytesAt buf (i * 2) (int16le (quantizeSample x))) rest (i + 1)

/-- convertAudioDataToWAV (server.js lines 170 to 211). -/
def convertAudioDataToWAV (audioData : List ℚ) (sampleRate : Nat) : List Nat :=
  let numChannels := 1
  let bitsPerSample := 16
  let byteRate := sampleRate * numChannels * bitsPerSample / 8
  let blockAlign := numChannels * bitsPerSample / 8
  let dataSize := audioData.length * 2
  let chunkSize := 36 + dataSize
  let header := writeWAVHeader chunkSize numChannels sampleRate byteRate
    blockAlign bitsPerSample dataSize
  let pcmData := writeSamplesLoop (bufAlloc dataSize) audioData 0
  header ++ pcmData

@[simp] theorem asciiBytes_RIFF : asciiBytes "RIFF" = [82, 73, 70, 70] := rfl

@[simp] theorem asciiBytes_WAVE : asciiBytes "WAVE" = [87, 65, 86, 69] := rfl

@[simp] theorem asciiBytes_fmt : asciiBytes "fmt " = [102, 109, 116, 32] := rfl

@[simp] theorem asciiBytes_data : asciiBytes "data" = [100, 97, 116, 97] := rfl

@[simp] theorem u16le_length (n : Nat) : (u16le n).length = 2 := rfl

@[simp] theorem u32le_length (n : Nat) : (u32le n).length = 4 := rfl

@[simp] theorem int16le_length (z : Int) : (int16le z).length = 2 := rfl

/-- A write into the zero region right after the already-written prefix
appends the bytes and shrinks the zero region. -/
theorem write_step (done : List Nat) (off k : Nat) (bs : List Nat)
    (hoff : off = done.length) (hlen : bs.length ≤ k) :
    writeBytesAt (done ++ List.replicate k 0) off bs
      = (done ++ bs) ++ List.replicate (k - bs.length) 0 := by
  subst hoff
  unfold writeBytesAt
  rw [List.take_left]
  have hrep : List.replicate k (0 : Nat)
      = List.replicate bs.length 0 ++ List.replicate (k - bs.length) 0 := by
    rw [← List.replicate_add]
    congr 1
    omega
  rw [hrep, ← List.append_assoc]
  have hlen2 : done.length + bs.length
      = (done ++ List.replicate bs.length (0 : Nat)).length := by
    simp
  rw [hlen2, List.drop_left]

theorem writeWAVHeader_eq (cs nc sr br ba bps ds : Nat) :
    writeWAVHeader cs nc sr br ba bps ds
      = asciiBytes "RIFF" ++ u32le cs ++ asciiBytes "WAVE" ++ asciiBytes "fmt "
        ++ u32le 16 ++ u16le 1 ++ u16le nc ++ u32le sr ++ u32le br
        ++ u16le ba ++ u16le bps ++ asciiBytes "data" ++ u32le ds := by
  simp only [writeWAVHeader, bufAlloc]
  rw [show (List.replicate 44 (0 : Nat)) = [] ++ List.replicate 44 0 from rfl]
  rw [write_step [] 0 44 _ rfl (by simp)]
  rw [write_step _ 4 _ _ (by simp) (by simp)]
  rw [write_step _ 8 _ _ (by simp) (by simp)]
  rw [write_step _ 12 _ _ (by simp) (by simp)]
  rw [write_step _ 16 _ _ (by simp) (by simp)]
  rw [write_step _ 20 _ _ (by simp) (by simp)]
  rw [write_step _ 22 _ _ (by simp) (by simp)]
  rw [write_step _ 24 _ _ (by simp) (by simp)]
  rw [write_step _ 28 _ _ (by simp) (by simp)]
  rw [write_step _ 32 _ _ (by simp) (by simp)]
  rw [write_step _ 34 _ _ (by simp) (by simp)]
  rw [write_step _ 36 _ _ (by simp) (by simp)]
  rw [write_step _ 40 _ _ (by simp) (by simp)]
  simp [List.append_assoc]

theorem writeWAVHeader_length (cs nc sr br ba bps ds : Nat) :
    (writeWAVHeader cs nc sr br ba bps ds).length = 44 := by
  rw [writeWAVHeader_eq]
  simp

/-- The PCM loop fills the freshly allocated buffer with the encoded
samples in order. -/
theorem writeSamplesLoop_eq (data : List ℚ) :
    ∀ (i : Nat) (done : List Nat), done.length = 2 * i →
      writeSamplesLoop (done ++ bufAlloc (2 * data.length)) data i
        = done ++ (data.map fun x => int16le (quantizeSample x)).flatten := by
  induction data with
  | nil =>
      intro i done _
      simp [writeSamplesLoop, bufAlloc]
  | cons x rest ih =>
      intro i done hdone
      have hflat : ((x :: rest).map fun y => int16le (quantizeSample y)).flatten
          = int16le (quantizeSample x) ++ (rest.map fun y => int16le (quantizeSample y)).flatten := by
        simp
      rw [hflat]
      show writeSamplesLoop
          (writeBytesAt (done ++ bufAlloc (2 * (x :: rest).length)) (i * 2)
            (int16le (quantizeSample x))) rest (i + 1)
        = done ++ (int16le (quantizeSample x) ++ (rest.map fun y => int16le (quantizeSample y)).flatten)
      rw [show (2 * (x :: rest).length) = 2 * (1 + rest.length) from by simp [Nat.add_comm]]
      rw [show bufAlloc (2 * (1 + rest.length)) = List.replicate (2 * (1 + rest.length)) 0 from rfl]
      rw [write_step done (i * 2) (2 * (1 + rest.length)) _ (by omega) (by simp)]
      have h2 : 2 * (1 + rest.length) - (int16le (quantizeSample x)).length
          = 2 * rest.length := by simp; omega
      rw [h2]
      have h3 : (done ++ int16le (quantizeSample x)).length = 2 * (i + 1) := by
        simp [hdone]; omega
      have := ih (i + 1) (done ++ int16le (quantizeSample x)) h3
      rw [show List.replicate (2 * rest.length) (0 : Nat) = bufAlloc (2 * rest.length) from rfl]
      rw [this]
      simp [List.append_assoc]

/-- convertAudioDataToWAV unfolded into header concatenation plus flat
sample payload. -/
theorem convertAudioDataToWAV_eq (data : List ℚ) (sr : Nat) :
    convertAudioDataToWAV data sr
      = writeWAVHeader (36 + data.length * 2) 1 sr (sr * 1 * 16 / 8)
          (1 * 16 / 8) 16 (data.length * 2)
        ++ (data.map fun x => int16le (quantizeSample x)).flatten := by
  show writeWAVHeader _ _ _ _ _ _ _ ++ writeSamplesLoop (bufAlloc (data.length * 2)) data 0 = _
  have := writeSamplesLoop_eq data 0 [] rfl
  rw [show data.length * 2 = 2 * data.length from by omega]
  rw [show ([] : List Nat) ++ bufAlloc (2 * data.length) = bufAlloc (2 * data.length) from rfl] at this
  rw [this]
  simp

/-- Math.PI, the exact rational value of the IEEE-754 double constant. -/
def mathPI : ℚ := 884279719003555 / 281474976710656

/-- One quantized tone sample of generateTestAudio (lines 522 to 526):
Math.floor((Math.sin(2 * Math.PI * 440 * i / 22050) * 0.3) * 32767).
The source applies no clamping here.  The sine itself is an opaque
environment function. -/
def toneInt (mathSin : ℚ → ℚ) (i : Nat) : ℤ :=
  ⌊mathSin (2 * mathPI * 440 * i / 22050) * (3 / 10) * 32767⌋

/-- The sample loop of generateTestAudio: n remaining samples, current
index i, each written at byte offset i * 2. -/
def testAudioLoop (mathSin : ℚ → ℚ) (buf : List Nat) : Nat → Nat → List Nat
  | 0, _ => buf
  | n + 1, i =>
      testAudioLoop mathSin (writeBytesAt buf (i * 2) (int16le (toneInt mathSin i))) n (i + 1)

/-- generateTestAudio (server.js lines 493 to 528): the tertiary synthetic
tone generator. -/
def generateTestAudio (mathSin : ℚ → ℚ) (text : String) : List Nat :=
  let sampleRate : Nat := 22050
  let duration : ℚ := min ((text.length : ℚ) * (1 / 10)) 3
  let numSamples : Nat := (⌊(sampleRate : ℚ) * duration⌋).toNat
  let header := writeWAVHeader (36 + numSamples * 2) 1 sampleRate (sampleRate * 2)
    2 16 (numSamples * 2)
  let audioData := testAudioLoop mathSin (bufAlloc (numSamples * 2)) numSamples 0
  header ++ audioData

/-- The tone loop fills the allocated buffer with the encoded tone samples
for indices i, i+1, ..., i+n-1 in order. -/
theorem testAudioLoop_eq (mathSin : ℚ → ℚ) :
    ∀ (n i : Nat) (done : List Nat), done.length = 2 * i →
      testAudioLoop mathSin (done ++ bufAlloc (2 * n)) n i
        = done ++ ((List.range' i n).map fun j => int16le (toneInt mathSin j)).flatten := by
  intro n
  induction n with
  | zero =>
      intro i done _
      simp [testAudioLoop, bufAlloc]
  | succ m ih =>
      intro i done hdone
      show testAudioLoop mathSin
          (writeBytesAt (done ++ bufAlloc (2 * (m + 1))) (i * 2) (int16le (toneInt mathSin i))) m (i + 1)
        = done ++ ((List.range' i (m + 1)).map fun j => int16le (toneInt mathSin j)).flatten
      rw [show (2 * (m + 1)) = 2 * (1 + m) from by omega]
      rw [show bufAlloc (2 * (1 + m)) = List.replicate (2 * (1 + m)) 0 from rfl]
      rw [write_step done (i * 2) (2 * (1 + m)) _ (by omega) (by simp)]
      have h2 : 2 * (1 + m) - (int16le (toneInt mathSin i)).length = 2 * m := by
        simp only [int16le_length]
        omega
      rw [h2]
      have h3 : (done ++ int16le (toneInt mathSin i)).length = 2 * (i + 1) := by
        simp [hdone]; omega
      rw [show List.replicate (2 * m) (0 : Nat) = bufAlloc (2 * m) from rfl]
      rw [ih (i + 1) (done ++ int16le (toneInt mathSin i)) h3]
      rw [List.range'_succ]
      simp [List.append_assoc]

/-- The language-to-voice table of server.js lines 47 to 61. -/
def LANGUAGE_VOICE_MAP : List (String × String) :=
  [("en-US", "Hades"), ("en-GB", "Ronald"), ("es-ES", "Ronald"),
   ("fr-FR", "Ronald"), ("de-DE", "Ronald"), ("it-IT", "Ronald"),
   ("pt-BR", "Ronald"), ("ja-JP", "Ronald"), ("ko-KR", "Ashley"),
   ("zh-CN", "Ashley"), ("ru-RU", "Dennis"), ("ar-SA", "Dennis"),
   ("hi-IN", "Hades")]

/-- JavaScript a || b on strings: the empty string is falsy.  An absent
object property is likewise falsy and is modelled as the empty string. -/
def jsOrString (a b : String) : String := if a = "" then b else a

/-- getVoiceForLanguage (server.js lines 536 to 547). -/
def getVoiceForLanguage (language voice : String) : String :=
  let selectedVoice := jsOrString ((LANGUAGE_VOICE_MAP.lookup language).getD "")
    ((LANGUAGE_VOICE_MAP.lookup "en-US").getD "")
  if voice ≠ "" ∧ voice ≠ "default" then voice
  else selectedVoice

/-- requiresTranslation (server.js lines 158 to 160):
not language.startsWith with the prefix en-, expressed on the character
sequence of the string. -/
def requiresTranslation (language : String) : Bool :=
  ! (language.data.take 3 == ['e', 'n', '-'])

/-- The blank test at server.js line 326:
not translatedText, or translatedText.trim().length equal to 0.  The
trimmed string is empty exactly when every character is whitespace;
exotic Unicode space characters are outside the model. -/
def jsIsBlank (s : String) : Bool := s == "" || s.data.all Char.isWhitespace

/-- One streamed TTS chunk (spec: AudioChunk): optional text fragment and
optional audio sample payload, as consumed at server.js lines 406 to 416. -/
structure Chunk where
  text : String
  audio : Option (List ℚ)

/-- The samples a chunk carries: its audio payload, or none. -/
def chunkSamples (c : Chunk) : List ℚ := c.audio.getD []

/-- The TTS stream drain loop of server.js lines 401 to 416, with its
three accumulators (allAudioData, initialText, resultCount). -/
def drainTTS : List Chunk → List ℚ → String → Nat → List ℚ × String × Nat
  | [], acc, t, n => (acc, t, n)
  | c :: cs, acc, t, n =>
      let t2 := if c.text ≠ "" then t ++ c.text else t
      let acc2 := match c.audio with
        | some d => acc ++ d
        | none => acc
      drainTTS cs acc2 t2 (n + 1)

/-- The assembled sample buffer produced by draining a chunk stream. -/
def allAudioOf (chunks : List Chunk) : List ℚ := (drainTTS chunks [] "" 0).1

theorem drainTTS_audio (chunks : List Chunk) :
    ∀ (acc : List ℚ) (t : String) (n : Nat),
      (drainTTS chunks acc t n).1 = acc ++ (chunks.map chunkSamples).flatten := by
  induction chunks with
  | nil => intro acc t n; simp [drainTTS]
  | cons c cs ih =>
      intro acc t n
      show (drainTTS cs _ _ _).1 = _
      cases h : c.audio with
      | none =>
          show (drainTTS cs acc (if c.text ≠ "" then t ++ c.text else t) (n + 1)).1
            = acc ++ (List.map chunkSamples (c :: cs)).flatten
          rw [ih]
          simp [chunkSamples, h]
      | some d =>
          show (drainTTS cs (acc ++ d) (if c.text ≠ "" then t ++ c.text else t) (n + 1)).1
            = acc ++ (List.map chunkSamples (c :: cs)).flatten
          rw [ih]
          simp [chunkSamples, h]

/-- The shape of the first value of the translation execution stream
(server.js lines 297 to 319): a complete response, a delta stream, or any
other result type, which the source leaves the collected text empty on. -/
inductive TransResp where
  | content (s : String)
  | contentStream (deltas : List String)
  | other

/-- The translated text collected at lines 297 to 319: the single content
value, or the concatenation of the non-empty stream deltas in arrival
order, or the empty string. -/
def collectTranslation : TransResp → String
  | .content s => s
  | .contentStream ds => ds.foldl (fun acc d => if d ≠ "" then acc ++ d else acc) ""
  | .other => ""

/-- The remote-call outcomes a single generateTTSAudio invocation can
observe.  Each field collapses one awaited remote interaction:
a thrown error anywhere inside it is the error case.
rest distinguishes a response carrying audioContent (some bytes),
a response without audioContent (none), and a thrown request error. -/
structure TTSEnv where
  apiKeyPresent : Bool
  translation : Except String TransResp
  ttsDrain : Except String (List Chunk)
  rest : Except String (Option (List Nat))
  mathSin : ℚ → ℚ

/-- Observable side effects of one generateTTSAudio invocation, in
program order: executor releases, graph executions, the REST fallback
call and the test-audio fallback. -/
inductive Ev where
  | transClose
  | transStop
  | transCleanupAll
  | transDestroy
  | ttsExec (input : String)
  | ttsClose
  | ttsStop
  | ttsCleanupAll
  | ttsDestroy
  | restCall (input : String)
  | toneGen (input : String)
  deriving DecidableEq

/-- The names bound by top-level require declarations of
src/backend/server.js (lines 7 to 13).  Neither fs nor path is among
them, although lines 433 to 439 reference both. -/
def moduleRequiredNames : List String :=
  ["dotenv", "express", "cors", "helmet", "axios",
   "NodeFactory", "GraphBuilder", "ComponentFactory", "TTSOutputStreamIterator"]

def moduleHasBinding (name : String) : Bool := moduleRequiredNames.contains name

/-- The debug sample save at server.js lines 432 to 440: it dereferences
the module bindings path and fs; referencing an unbound identifier throws
a ReferenceError. -/
def saveSampleStep : Except String Unit :=
  if moduleHasBinding "path" && moduleHasBinding "fs" then Except.ok ()
  else Except.error "ReferenceError: path is not defined"

/-- The translation step of generateTTSAudio (lines 235 to 335): run only
when requiresTranslation holds; on success the four executor release
calls run and the graph input becomes the translated text unless it is
blank; a throw aborts the step with no release. -/
def translationPhase (env : TTSEnv) (text language : String) :
    Except String String × List Ev :=
  if requiresTranslation language then
    match env.translation with
    | .error e => (.error e, [])
    | .ok r =>
        let translatedText := collectTranslation r
        let evs := [Ev.transClose, Ev.transStop, Ev.transCleanupAll, Ev.transDestroy]
        if jsIsBlank translatedText then (.ok text, evs)
        else (.ok translatedText, evs)
  else (.ok text, [])

/-- The body of the inner try of generateTTSAudio (lines 233 to 445):
translation, TTS graph execution and drain, executor release, WAV
encoding and the debug file save. -/
def primaryPhase (env : TTSEnv) (text language voiceName : String) :
    Except String (List Nat) × List Ev :=
  match translationPhase env text language with
  | (.error e, evs) => (.error e, evs)
  | (.ok graphInput, evs0) =>
      let evs1 := evs0 ++ [Ev.ttsExec graphInput]
      match env.ttsDrain with
      | .error e => (.error e, evs1)
      | .ok chunks =>
          let allAudioData := allAudioOf chunks
          let evs2 := evs1 ++ [Ev.ttsClose, Ev.ttsStop, Ev.ttsCleanupAll, Ev.ttsDestroy]
          if 0 < allAudioData.length then
            let audioBuffer := convertAudioDataToWAV allAudioData 22050
            match saveSampleStep with
            | .ok _ => (.ok audioBuffer, evs2)
            | .error e => (.error e, evs2)
          else (.error "No audio content from TTS graph", evs2)

/-- The value the local variable graphInput holds when the inner catch
handler runs: the non-blank translated text if translation completed,
otherwise the original text. -/
def graphInputOf (env : TTSEnv) (text language : String) : String :=
  match (translationPhase env text language).1 with
  | .ok s => s
  | .error _ => text

/-- The inner catch handler of generateTTSAudio (lines 447 to 479): the
REST fallback, then the test audio fallback.  It always produces bytes. -/
def fallbackHandler (env : TTSEnv) (graphInput : String) : List Nat × List Ev :=
  match env.rest with
  | .ok (some audioContent) => (audioContent, [Ev.restCall graphInput])
  | .ok none =>
      (generateTestAudio env.mathSin graphInput,
       [Ev.restCall graphInput, Ev.toneGen graphInput])
  | .error _ =>
      (generateTestAudio env.mathSin graphInput,
       [Ev.restCall graphInput, Ev.toneGen graphInput])

/-- generateTTSAudio (server.js lines 225 to 486): the missing-key early
fallback, the primary phase, and the catch handler; the outer catch only
rethrows. -/
def generateTTSAudio_run (env : TTSEnv) (text language voice : String) :
    Except String (List Nat) × List Ev :=
  if !env.apiKeyPresent then
    (.ok (generateTestAudio env.mathSin text), [Ev.toneGen text])
  else
    let voiceName := getVoiceForLanguage language voice
    match primaryPhase env text language voiceName with
    | (.ok buf, evs) => (.ok buf, evs)
    | (.error _, evs) =>
        let fb := fallbackHandler env (graphInputOf env text language)
        (.ok fb.1, evs ++ fb.2)

theorem flatten_length_two {α : Type} (l : List α) (f : α → List Nat)
    (h : ∀ a, (f a).length = 2) : ((l.map f).flatten).length = 2 * l.length := by
  induction l with
  | nil => simp
  | cons a t ih =>
      simp only [List.map_cons, List.flatten_cons, List.length_append, h a, ih,
        List.length_cons]
      omega

/-- C1: draining a finite TTS chunk stream assembles exactly the
concatenation of the chunks' sample payloads in strict arrival order, and
the assembled length is the sum of the per-chunk sample counts; no sample
is dropped, duplicated or reordered. -/
theorem claim_C1_stream_assembly (chunks : List Chunk) :
    allAudioOf chunks = (chunks.map chunkSamples).flatten
  ∧ (allAudioOf chunks).length
      = ((chunks.map fun c => (chunkSamples c).length).sum) := by
  have h := drainTTS_audio chunks [] "" 0
  have h1 : allAudioOf chunks = (chunks.map chunkSamples).flatten := by
    simpa [allAudioOf] using h
  refine ⟨h1, ?_⟩
  rw [h1, List.length_flatten]
  simp [Function.comp_def]

theorem quantizeSample_zero : quantizeSample 0 = 0 := by
  unfold quantizeSample
  rw [min_eq_right (by norm_num : (0 : ℚ) ≤ 1)]
  rw [max_eq_right (by norm_num : (-1 : ℚ) ≤ 0)]
  norm_num

/-- C2: for N samples at rate R (within the uint32 ranges the container
format admits), the encoder emits the exact 44-byte header layout of the
spec followed by the quantized little-endian 16-bit samples, 44 + 2N
bytes in total; all-zero input yields an all-zero payload. -/
theorem claim_C2_wav_layout (data : List ℚ) (R : Nat)
    (h1 : 36 + 2 * data.length < 2 ^ 32) (h2 : 2 * R < 2 ^ 32) :
    convertAudioDataToWAV data R
      = asciiBytes "RIFF" ++ u32le (36 + 2 * data.length) ++ asciiBytes "WAVE"
        ++ asciiBytes "fmt " ++ u32le 16 ++ u16le 1 ++ u16le 1 ++ u32le R
        ++ u32le (2 * R) ++ u16le 2 ++ u16le 16 ++ asciiBytes "data"
        ++ u32le (2 * data.length)
        ++ (data.map fun x => int16le (quantizeSample x)).flatten
  ∧ (convertAudioDataToWAV data R).length = 44 + 2 * data.length
  ∧ ((∀ x ∈ data, x = 0) →
      (convertAudioDataToWAV data R).drop 44
        = (List.replicate data.length ([0, 0] : List Nat)).flatten) := by
  have hbr : R * 1 * 16 / 8 = 2 * R := by
    rw [show R * 1 * 16 = 8 * (2 * R) from by ring]
    exact Nat.mul_div_cancel_left _ (by norm_num)
  have hba : 1 * 16 / 8 = 2 := by norm_num
  have h2l : data.length * 2 = 2 * data.length := by omega
  have heq : convertAudioDataToWAV data R
      = asciiBytes "RIFF" ++ u32le (36 + 2 * data.length) ++ asciiBytes "WAVE"
        ++ asciiBytes "fmt " ++ u32le 16 ++ u16le 1 ++ u16le 1 ++ u32le R
        ++ u32le (2 * R) ++ u16le 2 ++ u16le 16 ++ asciiBytes "data"
        ++ u32le (2 * data.length)
        ++ (data.map fun x => int16le (quantizeSample x)).flatten := by
    rw [convertAudioDataToWAV_eq, writeWAVHeader_eq, hbr, hba, h2l]
  refine ⟨heq, ?_, ?_⟩
  · have hlen := flatten_length_two data (fun x => int16le (quantizeSample x))
      (fun a => int16le_length _)
    simp [convertAudioDataToWAV_eq, writeWAVHeader_length, hlen]
  · intro hz
    rw [convertAudioDataToWAV_eq]
    have hh : (writeWAVHeader (36 + data.length * 2) 1 R (R * 1 * 16 / 8)
        (1 * 16 / 8) 16 (data.length * 2)).length = 44 := writeWAVHeader_length _ _ _ _ _ _ _
    rw [show (44 : Nat) = (writeWAVHeader (36 + data.length * 2) 1 R (R * 1 * 16 / 8)
        (1 * 16 / 8) 16 (data.length * 2)).length from hh.symm]
    rw [List.drop_left]
    have hmap : data.map (fun x => int16le (quantizeSample x))
        = data.map (fun _ => ([0, 0] : List Nat)) := by
      apply List.map_congr_left
      intro x hx
      rw [hz x hx, show quantizeSample 0 = 0 from quantizeSample_zero]
      decide
    rw [hmap]
    simp

/-- C2 witness: three zero samples at 22050 Hz. -/
theorem claim_C2_wav_layout_witness :
    (36 + 2 * (List.replicate 3 (0 : ℚ)).length < 2 ^ 32)
  ∧ (2 * 22050 < 2 ^ 32)
  ∧ (convertAudioDataToWAV (List.replicate 3 (0 : ℚ)) 22050).length
      = 44 + 2 * (List.replicate 3 (0 : ℚ)).length :=
  ⟨by decide, by decide,
   (claim_C2_wav_layout (List.replicate 3 0) 22050 (by decide) (by decide)).2.1⟩

/-- C3: quantization clamps to [-1, 1] before the integer conversion, so
out-of-range samples saturate at 32767 and -32767 and every emitted value
lies in the signed 16-bit range; converting the clamped sample gives the
same result. -/
theorem claim_C3_quantize_clamps (s : ℚ) :
    (1 < s → quantizeSample s = 32767)
  ∧ (s < -1 → quantizeSample s = -32767)
  ∧ (-32768 ≤ quantizeSample s ∧ quantizeSample s ≤ 32767)
  ∧ quantizeSample s = quantizeSample (max (-1) (min 1 s)) := by
  have hc1 : (-1 : ℚ) ≤ max (-1) (min 1 s) := le_max_left _ _
  have hc2 : max (-1) (min 1 s) ≤ 1 := max_le (by norm_num) (min_le_left _ _)
  refine ⟨?_, ?_, ⟨?_, ?_⟩, ?_⟩
  · intro h
    unfold quantizeSample
    rw [min_eq_left h.le, max_eq_right (by norm_num : (-1 : ℚ) ≤ 1)]
    rw [show (1 : ℚ) * 32767 = ((32767 : ℤ) : ℚ) from by norm_num]
    rw [Int.floor_intCast]
  · intro h
    unfold quantizeSample
    rw [min_eq_right (le_of_lt (lt_of_lt_of_le h (by norm_num)))]
    rw [max_eq_left h.le]
    rw [show (-1 : ℚ) * 32767 = ((-32767 : ℤ) : ℚ) from by norm_num]
    rw [Int.floor_intCast]
  · have hx : ((-32767 : ℤ) : ℚ) ≤ max (-1) (min 1 s) * 32767 := by
      have := mul_le_mul_of_nonneg_right hc1 (by norm_num : (0 : ℚ) ≤ 32767)
      push_cast
      linarith
    have := Int.le_floor.mpr hx
    unfold quantizeSample
    omega
  · have hx : max (-1) (min 1 s) * 32767 ≤ ((32767 : ℤ) : ℚ) := by
      have := mul_le_mul_of_nonneg_right hc2 (by norm_num : (0 : ℚ) ≤ 32767)
      push_cast
      linarith
    have := Int.floor_le_floor (α := ℚ) hx
    rw [Int.floor_intCast] at this
    exact this
  · unfold quantizeSample
    rw [min_eq_right hc2, max_eq_right hc1]

/-- C3 witness: concrete out-of-range samples. -/
theorem claim_C3_quantize_clamps_witness :
    quantizeSample 2 = 32767 ∧ quantizeSample (-2) = -32767 :=
  ⟨(claim_C3_quantize_clamps 2).1 (by norm_num),
   (claim_C3_quantize_clamps (-2)).2.1 (by norm_num)⟩

theorem lookup_val_mem (k v : String) :
    ∀ l : List (String × String), l.lookup k = some v → v ∈ l.map Prod.snd := by
  intro l
  induction l with
  | nil => intro h; simp [List.lookup] at h
  | cons p t ih =>
      obtain ⟨a, b⟩ := p
      intro h
      rw [List.lookup] at h
      cases hak : (k == a) with
      | true =>
          rw [hak] at h
          simp at h
          simp [h]
      | false =>
          rw [hak] at h
          simp at h
          simp only [List.map_cons, List.mem_cons]
          exact Or.inr (ih h)

/-- C10: a non-empty voice hint other than the literal default is returned
verbatim; otherwise the language is looked up in the voice table, with the
en-US entry (Hades) as the fallback for unknown languages. -/
theorem claim_C10_voice_selection (language voice : String) :
    (voice ≠ "" → voice ≠ "default" →
      getVoiceForLanguage language voice = voice)
  ∧ (voice = "" ∨ voice = "default" →
      getVoiceForLanguage language voice
        = (LANGUAGE_VOICE_MAP.lookup language).getD "Hades")
  ∧ LANGUAGE_VOICE_MAP.lookup "en-US" = some "Hades" := by
  have hvals : ∀ v ∈ LANGUAGE_VOICE_MAP.map Prod.snd, v ≠ "" := by decide
  refine ⟨?_, ?_, by decide⟩
  · intro h1 h2
    unfold getVoiceForLanguage
    rw [if_pos ⟨h1, h2⟩]
  · intro hv
    have hcond : ¬ (voice ≠ "" ∧ voice ≠ "default") := by
      rcases hv with h | h <;> simp [h]
    unfold getVoiceForLanguage
    rw [if_neg hcond]
    have hen : (LANGUAGE_VOICE_MAP.lookup "en-US").getD "" = "Hades" := by decide
    rw [hen]
    cases hl : LANGUAGE_VOICE_MAP.lookup language with
    | none => simp [jsOrString]
    | some v =>
        have hne : v ≠ "" := hvals v (lookup_val_mem language v _ hl)
        simp [jsOrString, hne]

/-- C10 witness: an explicit hint wins; an unknown language falls back to
the en-US voice. -/
theorem claim_C10_voice_selection_witness :
    getVoiceForLanguage "fr-FR" "Alice" = "Alice"
  ∧ getVoiceForLanguage "xx-XX" "default" = "Hades" :=
  ⟨(claim_C10_voice_selection "fr-FR" "Alice").1 (by decide) (by decide),
   by
    have h := (claim_C10_voice_selection "xx-XX" "default").2.1 (Or.inr rfl)
    simpa using h⟩

/-- C8: the tone generator deterministically emits a WAV container with
floor(22050 * min(textLength * 0.1, 3)) samples: a 44-byte header at
sample rate 22050 followed by exactly that many quantized samples of the
440 Hz sine amplitude-scaled by 0.3, so the generated duration matches
min(textLength * 0.1, 3) to within one sample period. -/
theorem claim_C8_tone_generator (mathSin : ℚ → ℚ) (text : String) :
    (generateTestAudio mathSin text).length
        = 44 + 2 * (⌊(22050 : ℚ) * min ((text.length : ℚ) * (1 / 10)) 3⌋).toNat
  ∧ (generateTestAudio mathSin text).take 44
        = writeWAVHeader
            (36 + (⌊(22050 : ℚ) * min ((text.length : ℚ) * (1 / 10)) 3⌋).toNat * 2)
            1 22050 (22050 * 2) 2 16
            ((⌊(22050 : ℚ) * min ((text.length : ℚ) * (1 / 10)) 3⌋).toNat * 2)
  ∧ (generateTestAudio mathSin text).drop 44
        = ((List.range (⌊(22050 : ℚ) * min ((text.length : ℚ) * (1 / 10)) 3⌋).toNat).map
            fun i => int16le (toneInt mathSin i)).flatten
  ∧ (0 : ℚ) ≤ min ((text.length : ℚ) * (1 / 10)) 3
        - (((⌊(22050 : ℚ) * min ((text.length : ℚ) * (1 / 10)) 3⌋).toNat : ℚ)) / 22050
  ∧ min ((text.length : ℚ) * (1 / 10)) 3
        - (((⌊(22050 : ℚ) * min ((text.length : ℚ) * (1 / 10)) 3⌋).toNat : ℚ)) / 22050
        < 1 / 22050 := by
  set d : ℚ := min ((text.length : ℚ) * (1 / 10)) 3 with hd
  set n : Nat := (⌊(22050 : ℚ) * d⌋).toNat with hn
  have hd0 : 0 ≤ d := le_min (by positivity) (by norm_num)
  have hx0 : (0 : ℚ) ≤ 22050 * d := by positivity
  have hfl0 : 0 ≤ ⌊(22050 : ℚ) * d⌋ := Int.floor_nonneg.mpr hx0
  have hcast : ((n : ℚ)) = ((⌊(22050 : ℚ) * d⌋ : ℤ) : ℚ) := by
    rw [hn]
    exact_mod_cast congrArg (fun z : ℤ => (z : ℚ)) (Int.toNat_of_nonneg hfl0)
  have hgen : generateTestAudio mathSin text
      = writeWAVHeader (36 + n * 2) 1 22050 (22050 * 2) 2 16 (n * 2)
        ++ ((List.range n).map fun i => int16le (toneInt mathSin i)).flatten := by
    show writeWAVHeader (36 + n * 2) 1 22050 (22050 * 2) 2 16 (n * 2)
        ++ testAudioLoop mathSin (bufAlloc (n * 2)) n 0 = _
    congr 1
    have hloop := testAudioLoop_eq mathSin n 0 [] rfl
    rw [List.nil_append] at hloop
    rw [show n * 2 = 2 * n from by omega, hloop, List.range_eq_range']
    simp
  have hhl : (writeWAVHeader (36 + n * 2) 1 22050 (22050 * 2) 2 16 (n * 2)).length = 44 :=
    writeWAVHeader_length _ _ _ _ _ _ _
  refine ⟨?_, ?_, ?_, ?_, ?_⟩
  · have hflat := flatten_length_two (List.range n) (fun i => int16le (toneInt mathSin i))
      (fun a => int16le_length _)
    simp [hgen, hhl, hflat]
  · rw [hgen, show (44 : Nat) = (writeWAVHeader (36 + n * 2) 1 22050 (22050 * 2) 2 16
      (n * 2)).length from hhl.symm, List.take_left]
  · rw [hgen, show (44 : Nat) = (writeWAVHeader (36 + n * 2) 1 22050 (22050 * 2) 2 16
      (n * 2)).length from hhl.symm, List.drop_left]
  · have hle : ((n : ℚ)) ≤ 22050 * d := by
      rw [hcast]
      exact Int.floor_le _
    rw [sub_nonneg, div_le_iff (by norm_num : (0 : ℚ) < 22050)]
    linarith
  · have hlt : (22050 : ℚ) * d < (n : ℚ) + 1 := by
      rw [hcast]
      exact_mod_cast Int.lt_floor_add_one ((22050 : ℚ) * d)
    have hsplit : (((n : ℚ)) + 1) / 22050 = ((n : ℚ)) / 22050 + 1 / 22050 := by ring
    have hdlt : d < (((n : ℚ)) + 1) / 22050 := by
      rw [lt_div_iff (by norm_num : (0 : ℚ) < 22050)]
      linarith
    linarith [hdlt, hsplit.le]

/-- The debug save always throws, because server.js never requires fs or
path. -/
theorem saveSampleStep_eq :
    saveSampleStep = Except.error "ReferenceError: path is not defined" := rfl

/-- The primary phase emits only translation releases, graph executions
and TTS releases: never a REST call or tone generation. -/
theorem primaryPhase_no_fallback_evs (env : TTSEnv) (text language vn s : String) :
    Ev.restCall s ∉ (primaryPhase env text language vn).2
  ∧ Ev.toneGen s ∉ (primaryPhase env text language vn).2 := by
  have htevs : (translationPhase env text language).2 = []
      ∨ (translationPhase env text language).2
        = [Ev.transClose, Ev.transStop, Ev.transCleanupAll, Ev.transDestroy] := by
    unfold translationPhase
    by_cases hrt : requiresTranslation language
    · simp only [hrt, if_true]
      cases env.translation with
      | error e => left; rfl
      | ok r =>
          by_cases hb : jsIsBlank (collectTranslation r)
          · right; simp [hb]
          · right; simp [hb]
    · simp [hrt]
  unfold primaryPhase
  rcases htr : translationPhase env text language with ⟨tres, tevs⟩
  rw [htr] at htevs
  cases tres with
  | error e =>
      simp only
      rcases htevs with h | h <;> subst h <;> simp
  | ok gi =>
      simp only
      cases hdr : env.ttsDrain with
      | error e =>
          simp only
          rcases htevs with h | h <;> subst h <;> simp
      | ok chunks =>
          simp only [saveSampleStep_eq]
          by_cases hlen : 0 < (allAudioOf chunks).length
          · simp only [hlen, if_true]
            rcases htevs with h | h <;> subst h <;> simp
          · simp only [hlen, if_false]
            rcases htevs with h | h <;> subst h <;> simp

/-- When the primary phase returns audio, the run returns it directly. -/
theorem run_of_primary_ok (env : TTSEnv) (text language voice : String)
    (b : List Nat) (evs : List Ev) (hkey : env.apiKeyPresent = true)
    (hp : primaryPhase env text language (getVoiceForLanguage language voice)
      = (Except.ok b, evs)) :
    generateTTSAudio_run env text language voice = (Except.ok b, evs) := by
  unfold generateTTSAudio_run
  simp only [hkey, Bool.not_true, Bool.false_eq_true, if_false, hp]

/-- When the primary phase throws, the run returns the catch handler's
fallback result, with the fallback events appended. -/
theorem run_of_primary_error (env : TTSEnv) (text language voice : String)
    (e : String) (evs : List Ev) (hkey : env.apiKeyPresent = true)
    (hp : primaryPhase env text language (getVoiceForLanguage language voice)
      = (Except.error e, evs)) :
    generateTTSAudio_run env text language voice
      = (Except.ok (fallbackHandler env (graphInputOf env text language)).1,
         evs ++ (fallbackHandler env (graphInputOf env text language)).2) := by
  unfold generateTTSAudio_run
  simp only [hkey, Bool.not_true, Bool.false_eq_true, if_false, hp]

/-- C4: once synthesis is reached (credential present), the three tiers
run in strict order: a primary success short-circuits both fallbacks, the
REST tier is invoked exactly when the primary phase throws, the tone tier
is invoked exactly when the REST tier also fails to deliver audio, a
delivered REST payload is returned as is, and the result is always ok --
never a failure. -/
theorem claim_C4_fallback_chain (env : TTSEnv) (text language voice : String)
    (hkey : env.apiKeyPresent = true) :
    (∃ b, (generateTTSAudio_run env text language voice).1 = Except.ok b)
  ∧ (∀ b, (primaryPhase env text language (getVoiceForLanguage language voice)).1
        = Except.ok b →
      (generateTTSAudio_run env text language voice).1 = Except.ok b
      ∧ ∀ s, Ev.restCall s ∉ (generateTTSAudio_run env text language voice).2
          ∧ Ev.toneGen s ∉ (generateTTSAudio_run env text language voice).2)
  ∧ (∀ e, (primaryPhase env text language (getVoiceForLanguage language voice)).1
        = Except.error e →
      Ev.restCall (graphInputOf env text language)
        ∈ (generateTTSAudio_run env text language voice).2)
  ∧ (∀ s, Ev.toneGen s ∈ (generateTTSAudio_run env text language voice).2 →
      (∃ e, (primaryPhase env text language (getVoiceForLanguage language voice)).1
          = Except.error e)
      ∧ ∀ bs, env.rest ≠ Except.ok (some bs))
  ∧ (∀ bs, env.rest = Except.ok (some bs) →
      ∀ e, (primaryPhase env text language (getVoiceForLanguage language voice)).1
          = Except.error e →
      (generateTTSAudio_run env text language voice).1 = Except.ok bs) := by
  rcases hp : primaryPhase env text language (getVoiceForLanguage language voice)
    with ⟨res, evs⟩
  have hnofb : ∀ s : String,
      Ev.restCall s ∉ (res, evs).2 ∧ Ev.toneGen s ∉ (res, evs).2 := by
    intro s
    have h := primaryPhase_no_fallback_evs env text language
      (getVoiceForLanguage language voice) s
    rw [hp] at h
    exact h
  cases res with
  | ok b =>
      have hrun := run_of_primary_ok env text language voice b evs hkey hp
      rw [hrun]
      refine ⟨⟨b, rfl⟩, ?_, ?_, ?_, ?_⟩
      · intro b2 hb2
        exact ⟨hb2, fun s => hnofb s⟩
      · intro e he
        simp at he
      · intro s hs
        exact absurd hs (hnofb s).2
      · intro bs hbs e he
        simp at he
  | error e0 =>
      have hrun := run_of_primary_error env text language voice e0 evs hkey hp
      rw [hrun]
      refine ⟨⟨(fallbackHandler env (graphInputOf env text language)).1, rfl⟩,
        ?_, ?_, ?_, ?_⟩
      · intro b2 hb2
        simp at hb2
      · intro e he
        cases hrest : env.rest with
        | ok o => cases o <;> simp [fallbackHandler, hrest]
        | error er => simp [fallbackHandler, hrest]
      · intro s hs
        simp only [Prod.snd, List.mem_append] at hs
        cases hrest : env.rest with
        | ok o =>
            cases o with
            | some bs =>
                rcases hs with hs | hs
                · exact absurd hs (hnofb s).2
                · rw [show fallbackHandler env (graphInputOf env text language)
                      = (bs, [Ev.restCall (graphInputOf env text language)]) from by
                        simp [fallbackHandler, hrest]] at hs
                  simp at hs
            | none =>
                refine ⟨⟨e0, rfl⟩, ?_⟩
                intro bs hbs
                simp at hbs
        | error er =>
            refine ⟨⟨e0, rfl⟩, ?_⟩
            intro bs hbs
            simp at hbs
      · intro bs hbs e he
        simp [fallbackHandler, hbs]

/-- C5 exhibit: even when the primary streaming tier drains to completion
with a non-empty sample buffer, the source dereferences the unbound path
and fs bindings while saving the debug file, so the inner try throws a
ReferenceError after encoding; the returned value is the fallback
handler's result and the REST fallback is invoked, contrary to the spec's
primary-success contract. -/
theorem claim_C5_primary_result_discarded (env : TTSEnv) (text language voice : String)
    (chunks : List Chunk) (gi : String)
    (hkey : env.apiKeyPresent = true)
    (htrans : (translationPhase env text language).1 = Except.ok gi)
    (hdrain : env.ttsDrain = Except.ok chunks)
    (hne : allAudioOf chunks ≠ []) :
    (primaryPhase env text language (getVoiceForLanguage language voice)).1
      = Except.error "ReferenceError: path is not defined"
  ∧ (generateTTSAudio_run env text language voice).1
      = Except.ok (fallbackHandler env (graphInputOf env text language)).1
  ∧ Ev.restCall (graphInputOf env text language)
      ∈ (generateTTSAudio_run env text language voice).2 := by
  have hlen : 0 < (allAudioOf chunks).length := List.length_pos.mpr hne
  rcases h : translationPhase env text language with ⟨tres, tevs⟩
  rw [h] at htrans
  have htres : tres = Except.ok gi := htrans
  subst htres
  have hp : primaryPhase env text language (getVoiceForLanguage language voice)
      = (Except.error "ReferenceError: path is not defined",
         tevs ++ [Ev.ttsExec gi]
           ++ [Ev.ttsClose, Ev.ttsStop, Ev.ttsCleanupAll, Ev.ttsDestroy]) := by
    unfold primaryPhase
    rw [h]
    simp only [hdrain, saveSampleStep_eq, hlen, if_true]
  have hrun := run_of_primary_error env text language voice _ _ hkey hp
  refine ⟨by rw [hp], by rw [hrun], ?_⟩
  rw [hrun]
  cases hrest : env.rest with
  | ok o => cases o <;> simp [fallbackHandler, hrest]
  | error er => simp [fallbackHandler, hrest]

def envC5 : TTSEnv :=
  { apiKeyPresent := true
    translation := Except.ok TransResp.other
    ttsDrain := Except.ok [{ text := "", audio := some [1] }]
    rest := Except.ok (some [7])
    mathSin := fun _ => 0 }

/-- C5 witness: a one-chunk stream with one sample, REST tier available. -/
theorem claim_C5_primary_result_discarded_witness :
    (allAudioOf [{ text := "", audio := some [1] }] ≠ [])
  ∧ (generateTTSAudio_run envC5 "hello" "en-US" "default").1
      = Except.ok (fallbackHandler envC5 (graphInputOf envC5 "hello" "en-US")).1 :=
  ⟨by decide,
   (claim_C5_primary_result_discarded envC5 "hello" "en-US" "default"
      [{ text := "", audio := some [1] }] "hello" rfl rfl rfl (by decide)).2.1⟩

/-- C6: a blank or whitespace-only translation result is detected and the
original text is synthesized instead; every graph synthesis execution of
the request uses the original text and the request still returns audio. -/
theorem claim_C6_blank_translation_uses_original (env : TTSEnv)
    (text language voice : String) (r : TransResp)
    (hkey : env.apiKeyPresent = true)
    (hreq : requiresTranslation language = true)
    (htr : env.translation = Except.ok r)
    (hblank : jsIsBlank (collectTranslation r) = true) :
    graphInputOf env text language = text
  ∧ Ev.ttsExec text ∈ (generateTTSAudio_run env text language voice).2
  ∧ (∀ s, Ev.ttsExec s ∈ (generateTTSAudio_run env text language voice).2 → s = text)
  ∧ (∃ b, (generateTTSAudio_run env text language voice).1 = Except.ok b) := by
  have htrans : translationPhase env text language
      = (Except.ok text,
         [Ev.transClose, Ev.transStop, Ev.transCleanupAll, Ev.transDestroy]) := by
    unfold translationPhase
    simp only [hreq, if_true, htr, hblank]
  have hgi : graphInputOf env text language = text := by
    unfold graphInputOf
    rw [htrans]
  obtain ⟨e0, evsP, hp, hmem, huniq⟩ : ∃ e0 evsP,
      primaryPhase env text language (getVoiceForLanguage language voice)
        = (Except.error e0, evsP)
      ∧ Ev.ttsExec text ∈ evsP
      ∧ (∀ s, Ev.ttsExec s ∈ evsP → s = text) := by
    unfold primaryPhase
    rw [htrans]
    cases hdr : env.ttsDrain with
    | error e =>
        refine ⟨e, [Ev.transClose, Ev.transStop, Ev.transCleanupAll, Ev.transDestroy,
          Ev.ttsExec text], by simp, by simp, ?_⟩
        intro s hs
        simpa using hs
    | ok chunks =>
        by_cases hlen : 0 < (allAudioOf chunks).length
        · refine ⟨"ReferenceError: path is not defined",
            [Ev.transClose, Ev.transStop, Ev.transCleanupAll, Ev.transDestroy,
             Ev.ttsExec text, Ev.ttsClose, Ev.ttsStop, Ev.ttsCleanupAll, Ev.ttsDestroy],
            by simp [saveSampleStep_eq, hlen], by simp, ?_⟩
          intro s hs
          simpa using hs
        · refine ⟨"No audio content from TTS graph",
            [Ev.transClose, Ev.transStop, Ev.transCleanupAll, Ev.transDestroy,
             Ev.ttsExec text, Ev.ttsClose, Ev.ttsStop, Ev.ttsCleanupAll, Ev.ttsDestroy],
            by simp [saveSampleStep_eq, hlen], by simp, ?_⟩
          intro s hs
          simpa using hs
  have hrun := run_of_primary_error env text language voice e0 evsP hkey hp
  refine ⟨hgi, ?_, ?_, ?_⟩
  · rw [hrun]
    simp only [List.mem_append]
    exact Or.inl hmem
  · intro s hs
    rw [hrun] at hs
    simp only [List.mem_append] at hs
    rcases hs with hs | hs
    · exact huniq s hs
    · cases hrest : env.rest with
      | ok o =>
          cases o with
          | some bs => rw [show fallbackHandler env (graphInputOf env text language)
                = (bs, [Ev.restCall (graphInputOf env text language)]) from by
                  simp [fallbackHandler, hrest]] at hs
                       simp at hs
          | none => rw [show fallbackHandler env (graphInputOf env text language)
                = (generateTestAudio env.mathSin (graphInputOf env text language),
                   [Ev.restCall (graphInputOf env text language),
                    Ev.toneGen (graphInputOf env text language)]) from by
                  simp [fallbackHandler, hrest]] at hs
                    simp at hs
      | error er => rw [show fallbackHandler env (graphInputOf env text language)
                = (generateTestAudio env.mathSin (graphInputOf env text language),
                   [Ev.restCall (graphInputOf env text language),
                    Ev.toneGen (graphInputOf env text language)]) from by
                  simp [fallbackHandler, hrest]] at hs
                    simp at hs
  · rw [hrun]
    exact ⟨_, rfl⟩

def envC6 : TTSEnv :=
  { apiKeyPresent := true
    translation := Except.ok (TransResp.content "   ")
    ttsDrain := Except.ok []
    rest := Except.ok (some [7])
    mathSin := fun _ => 0 }

/-- C6 witness: a whitespace-only translation of a Spanish request. -/
theorem claim_C6_blank_translation_uses_original_witness :
    jsIsBlank (collectTranslation (TransResp.content "   ")) = true
  ∧ graphInputOf envC6 "hi there" "es-ES" = "hi there" :=
  ⟨by decide,
   (claim_C6_blank_translation_uses_original envC6 "hi there" "es-ES" "default"
      (TransResp.content "   ") rfl rfl rfl (by decide)).1⟩

/-- C7: a thrown translation failure is absorbed: the request still
returns audio, and the synthesis attempts that follow use the original
untranslated text. -/
theorem claim_C7_translation_failure_absorbed (env : TTSEnv)
    (text language voice e : String)
    (hkey : env.apiKeyPresent = true)
    (hreq : requiresTranslation language = true)
    (htr : env.translation = Except.error e) :
    graphInputOf env text language = text
  ∧ (∃ b, (generateTTSAudio_run env text language voice).1 = Except.ok b)
  ∧ Ev.restCall text ∈ (generateTTSAudio_run env text language voice).2
  ∧ (∀ s, Ev.restCall s ∈ (generateTTSAudio_run env text language voice).2 → s = text)
  ∧ (∀ s, Ev.toneGen s ∈ (generateTTSAudio_run env text language voice).2 → s = text) := by
  have htrans : translationPhase env text language = (Except.error e, []) := by
    unfold translationPhase
    simp only [hreq, if_true, htr]
  have hgi : graphInputOf env text language = text := by
    unfold graphInputOf
    rw [htrans]
  have hp : primaryPhase env text language (getVoiceForLanguage language voice)
      = (Except.error e, []) := by
    unfold primaryPhase
    rw [htrans]
  have hrun := run_of_primary_error env text language voice e [] hkey hp
  rw [hgi] at hrun
  refine ⟨hgi, ⟨_, by rw [hrun]⟩, ?_, ?_, ?_⟩
  · rw [hrun]
    cases hrest : env.rest with
    | ok o => cases o <;> simp [fallbackHandler, hrest]
    | error er => simp [fallbackHandler, hrest]
  · intro s hs
    rw [hrun] at hs
    cases hrest : env.rest with
    | ok o =>
        cases o with
        | some bs =>
            rw [show fallbackHandler env text = (bs, [Ev.restCall text]) from by
              simp [fallbackHandler, hrest]] at hs
            simpa using hs
        | none =>
            rw [show fallbackHandler env text
                = (generateTestAudio env.mathSin text,
                   [Ev.restCall text, Ev.toneGen text]) from by
              simp [fallbackHandler, hrest]] at hs
            simpa using hs
    | error er =>
        rw [show fallbackHandler env text
            = (generateTestAudio env.mathSin text,
               [Ev.restCall text, Ev.toneGen text]) from by
          simp [fallbackHandler, hrest]] at hs
        simpa using hs
  · intro s hs
    rw [hrun] at hs
    cases hrest : env.rest with
    | ok o =>
        cases o with
        | some bs =>
            rw [show fallbackHandler env text = (bs, [Ev.restCall text]) from by
              simp [fallbackHandler, hrest]] at hs
            simp at hs
        | none =>
            rw [show fallbackHandler env text
                = (generateTestAudio env.mathSin text,
                   [Ev.restCall text, Ev.toneGen text]) from by
              simp [fallbackHandler, hrest]] at hs
            simpa using hs
    | error er =>
        rw [show fallbackHandler env text
            = (generateTestAudio env.mathSin text,
               [Ev.restCall text, Ev.toneGen text]) from by
          simp [fallbackHandler, hrest]] at hs
        simpa using hs

def envC7 : TTSEnv :=
  { apiKeyPresent := true
    translation := Except.error "provider timeout"
    ttsDrain := Except.ok []
    rest := Except.ok (some [7])
    mathSin := fun _ => 0 }

/-- C7 witness: a translation timeout on a Spanish request. -/
theorem claim_C7_translation_failure_absorbed_witness :
    requiresTranslation "es-ES" = true
  ∧ ∃ b, (generateTTSAudio_run envC7 "good morning" "es-ES" "default").1
      = Except.ok b :=
  ⟨rfl,
   (claim_C7_translation_failure_absorbed envC7 "good morning" "es-ES" "default"
      "provider timeout" rfl rfl rfl).2.1⟩

/-- C9 (amended): the four-call release sequence for a context runs
exactly once when that context's stream is drained to completion, but
does not run at all on exit paths where draining (or executing) throws:
the release calls sit on the straight-line path after the drain, with no
protecting finally block. -/
theorem claim_C9_release_only_after_drain (env : TTSEnv)
    (text language voice : String)
    (hkey : env.apiKeyPresent = true) :
    (∀ r, requiresTranslation language = true → env.translation = Except.ok r →
        ((generateTTSAudio_run env text language voice).2.count Ev.transClose = 1
       ∧ (generateTTSAudio_run env text language voice).2.count Ev.transStop = 1
       ∧ (generateTTSAudio_run env text language voice).2.count Ev.transCleanupAll = 1
       ∧ (generateTTSAudio_run env text language voice).2.count Ev.transDestroy = 1))
  ∧ (∀ e, requiresTranslation language = true → env.translation = Except.error e →
        (generateTTSAudio_run env text language voice).2.count Ev.transDestroy = 0)
  ∧ (∀ gi chunks, (translationPhase env text language).1 = Except.ok gi →
        env.ttsDrain = Except.ok chunks →
        ((generateTTSAudio_run env text language voice).2.count Ev.ttsClose = 1
       ∧ (generateTTSAudio_run env text language voice).2.count Ev.ttsStop = 1
       ∧ (generateTTSAudio_run env text language voice).2.count Ev.ttsCleanupAll = 1
       ∧ (generateTTSAudio_run env text language voice).2.count Ev.ttsDestroy = 1))
  ∧ (∀ gi e, (translationPhase env text language).1 = Except.ok gi →
        env.ttsDrain = Except.error e →
        (generateTTSAudio_run env text language voice).2.count Ev.ttsDestroy = 0) := by
  refine ⟨?_, ?_, ?_, ?_⟩
  · intro r hreq htr
    have htrans : ∃ tX, translationPhase env text language
        = (Except.ok tX,
           [Ev.transClose, Ev.transStop, Ev.transCleanupAll, Ev.transDestroy]) := by
      unfold translationPhase
      simp only [hreq, if_true, htr]
      by_cases hb : jsIsBlank (collectTranslation r)
      · exact ⟨text, by simp [hb]⟩
      · exact ⟨collectTranslation r, by simp [hb]⟩
    obtain ⟨tX, htrans⟩ := htrans
    unfold generateTTSAudio_run
    simp only [hkey, Bool.not_true, Bool.false_eq_true, if_false]
    unfold primaryPhase
    rw [htrans]
    simp only
    cases hdr : env.ttsDrain with
    | error e2 =>
        cases hrest : env.rest with
        | ok o =>
            cases o <;>
              simp [fallbackHandler, hrest, List.count_append, List.count_cons]
        | error er =>
            simp [fallbackHandler, hrest, List.count_append, List.count_cons]
    | ok chunks =>
        simp only [saveSampleStep_eq]
        by_cases hlen : 0 < (allAudioOf chunks).length <;>
          · simp only [hlen, if_true, if_false]
            cases hrest : env.rest with
            | ok o =>
                cases o <;>
                  simp [fallbackHandler, hrest, List.count_append, List.count_cons]
            | error er =>
                simp [fallbackHandler, hrest, List.count_append, List.count_cons]
  · intro e hreq htr
    have htrans : translationPhase env text language = (Except.error e, []) := by
      unfold translationPhase
      simp only [hreq, if_true, htr]
    have hp : primaryPhase env text language (getVoiceForLanguage language voice)
        = (Except.error e, []) := by
      unfold primaryPhase
      rw [htrans]
    have hrun := run_of_primary_error env text language voice e [] hkey hp
    rw [hrun]
    cases hrest : env.rest with
    | ok o =>
        cases o <;> simp [fallbackHandler, hrest, List.count_append, List.count_cons]
    | error er =>
        simp [fallbackHandler, hrest, List.count_append, List.count_cons]
  · intro gi chunks htgi hdr
    rcases h : translationPhase env text language with ⟨tres, tevs⟩
    rw [h] at htgi
    have htres : tres = Except.ok gi := htgi
    subst htres
    have htevs : tevs = []
        ∨ tevs = [Ev.transClose, Ev.transStop, Ev.transCleanupAll, Ev.transDestroy] := by
      have := h
      unfold translationPhase at this
      by_cases hrt : requiresTranslation language
      · simp only [hrt, if_true] at this
        cases henv : env.translation with
        | error e0 => rw [henv] at this; simp at this
        | ok r0 =>
            rw [henv] at this
            by_cases hb : jsIsBlank (collectTranslation r0)
            · simp [hb] at this
              right
              exact this.2.symm
            · simp [hb] at this
              right
              exact this.2.symm
      · simp only [hrt, if_false] at this
        left
        exact (Prod.mk.injEq _ _ _ _ ▸ this).2.symm
    unfold generateTTSAudio_run
    simp only [hkey, Bool.not_true, Bool.false_eq_true, if_false]
    unfold primaryPhase
    rw [h]
    simp only [hdr, saveSampleStep_eq]
    by_cases hlen : 0 < (allAudioOf chunks).length <;>
      · simp only [hlen, if_true, if_false]
        rcases htevs with he | he <;> subst he <;>
          · cases hrest : env.rest with
            | ok o =>
                cases o <;>
                  simp [fallbackHandler, hrest, List.count_append, List.count_cons]
            | error er =>
                simp [fallbackHandler, hrest, List.count_append, List.count_cons]
  · intro gi e htgi hdr
    rcases h : translationPhase env text language with ⟨tres, tevs⟩
    rw [h] at htgi
    have htres : tres = Except.ok gi := htgi
    subst htres
    have htevs : tevs = []
        ∨ tevs = [Ev.transClose, Ev.transStop, Ev.transCleanupAll, Ev.transDestroy] := by
      have := h
      unfold translationPhase at this
      by_cases hrt : requiresTranslation language
      · simp only [hrt, if_true] at this
        cases henv : env.translation with
        | error e0 => rw [henv] at this; simp at this
        | ok r0 =>
            rw [henv] at this
            by_cases hb : jsIsBlank (collectTranslation r0)
            · simp [hb] at this
              right
              exact this.2.symm
            · simp [hb] at this
              right
              exact this.2.symm
      · simp only [hrt, if_false] at this
        left
        exact (Prod.mk.injEq _ _ _ _ ▸ this).2.symm
    unfold generateTTSAudio_run
    simp only [hkey, Bool.not_true, Bool.false_eq_true, if_false]
    unfold primaryPhase
    rw [h]
    simp only [hdr]
    rcases htevs with he | he <;> subst he <;>
      · cases hrest : env.rest with
        | ok o =>
            cases o <;>
              simp [fallbackHandler, hrest, List.count_append, List.count_cons]
        | error er =>
            simp [fallbackHandler, hrest, List.count_append, List.count_cons]

def envC9 : TTSEnv :=
  { apiKeyPresent := true
    translation := Except.error "network error"
    ttsDrain := Except.ok []
    rest := Except.ok (some [0])
    mathSin := fun _ => 0 }

/-- C9 counterexample: on a request whose translation drain throws, the
acquired translation execution context is never released -- the release
sequence runs zero times on that exit path, refuting the claim that it
runs exactly once on every exit path. -/
theorem claim_C9_counterexample :
    requiresTranslation "es-ES" = true
  ∧ envC9.translation = Except.error "network error"
  ∧ (generateTTSAudio_run envC9 "hola" "es-ES" "default").2.count Ev.transDestroy = 0
  ∧ (generateTTSAudio_run envC9 "hola" "es-ES" "default").2.count Ev.transClose = 0 := by
  refine ⟨rfl, rfl, ?_, ?_⟩ <;> rfl

def envC9ok : TTSEnv :=
  { apiKeyPresent := true
    translation := Except.ok (TransResp.content "Hola")
    ttsDrain := Except.ok []
    rest := Except.ok (some [0])
    mathSin := fun _ => 0 }

/-- C9 witness: a completed translation drain releases its context
exactly once. -/
theorem claim_C9_release_only_after_drain_witness :
    requiresTranslation "es-ES" = true
  ∧ envC9ok.translation = Except.ok (TransResp.content "Hola")
  ∧ (generateTTSAudio_run envC9ok "hola" "es-ES" "default").2.count Ev.transDestroy = 1 :=
  ⟨rfl, rfl,
   ((claim_C9_release_only_after_drain envC9ok "hola" "es-ES" "default" rfl).1
      (TransResp.content "Hola") rfl rfl).2.2.2⟩

def envC4 : TTSEnv :=
  { apiKeyPresent := true
    translation := Except.ok TransResp.other
    ttsDrain := Except.ok []
    rest := Except.ok none
    mathSin := fun _ => 0 }

/-- C4 witness: with a credential present the pipeline returns audio. -/
theorem claim_C4_fallback_chain_witness :
    envC4.apiKeyPresent = true
  ∧ ∃ b, (generateTTSAudio_run envC4 "hi" "en-US" "default").1 = Except.ok b :=
  ⟨rfl, (claim_C4_fallback_chain envC4 "hi" "en-US" "default" rfl).1⟩
